import Mathlib

/-!
Verification development for the local-LLM content generator adapter
(`packages/core/src/core/localContentGenerator.ts`).

The source is embedded shallowly:
* strings are `List Char` (`Str`);
* `JSON.parse` is modelled by an executable recursive-descent JSON parser
  (`jsonParse`) returning `Option Json`; numbers keep their lexeme, which
  is faithful for all equality facts stated here;
* the streaming decoder's buffer-and-drain loop is `splitLines`/`runReads`;
* the transport (fetch / response / reader) is an explicit data type, and
  the generator's observable behaviour is the pair
  (list of yielded events, termination).
Text decoding of the byte stream is modelled at character level (the
stateful UTF-8 decoder is not where any claim lives).
-/

namespace LocalGen

abbrev Str := List Char

/-- JSON values as produced by `JSON.parse`; numbers keep their source lexeme. -/
inductive Json where
  | null : Json
  | bool : Bool → Json
  | num : Str → Json
  | str : Str → Json
  | arr : List Json → Json
  | obj : List (Str × Json) → Json

/-- JSON insignificant whitespace characters. -/
def isWs (c : Char) : Bool :=
  (c == ' ') || (c == '\t') || (c == '\n') || (c == '\r')

/-- Drop leading JSON whitespace. -/
def skipWs : Str → Str
  | [] => []
  | c :: cs => if isWs c then skipWs cs else c :: cs

/-- Value of one hex digit, as used in `\uXXXX` string escapes. -/
def hexVal (c : Char) : Option Nat :=
  if '0' ≤ c ∧ c ≤ '9' then some (c.toNat - '0'.toNat)
  else if 'a' ≤ c ∧ c ≤ 'f' then some (c.toNat - 'a'.toNat + 10)
  else if 'A' ≤ c ∧ c ≤ 'F' then some (c.toNat - 'A'.toNat + 10)
  else none

/-- Table of the two-character JSON string escapes: each escape letter
paired with the character it denotes. -/
def escTable : List (Char × Char) :=
  [('n', '\n'), ('t', '\t'), ('r', '\r'), ('b', Char.ofNat 8),
   ('f', Char.ofNat 12), ('"', '"'), ('\\', '\\'), ('/', '/')]

/-- Single-character JSON string escapes, via the table. -/
def escChar (c : Char) : Option Char :=
  (escTable.find? fun pr => pr.1 == c).map Prod.snd

/-- Parse the body of a JSON string after the opening quote; returns the
decoded content and the input remaining after the closing quote. -/
def parseStringBody : Str → Option (Str × Str)
  | [] => none
  | c :: cs =>
    if c = '"' then some ([], cs)
    else if c = '\\' then
      match cs with
      | [] => none
      | e :: cs2 =>
        if e = 'u' then
          match cs2 with
          | h1 :: h2 :: h3 :: h4 :: cs3 =>
            match hexVal h1, hexVal h2, hexVal h3, hexVal h4 with
            | some a, some b, some c4, some d =>
              match parseStringBody cs3 with
              | some (body, rest) =>
                some (Char.ofNat (((a * 16 + b) * 16 + c4) * 16 + d) :: body, rest)
              | none => none
            | _, _, _, _ => none
          | _ => none
        else
          match escChar e with
          | some ch =>
            match parseStringBody cs2 with
            | some (body, rest) => some (ch :: body, rest)
            | none => none
          | none => none
    else if c.toNat < 32 then none
    else
      match parseStringBody cs with
      | some (body, rest) => some (c :: body, rest)
      | none => none

/-- Fractional part of a JSON number (empty if there is none). -/
def parseFrac (s : Str) : Option (Str × Str) :=
  match s with
  | '.' :: t =>
    match t.span (·.isDigit) with
    | ([], _) => none
    | (ds, t2) => some ('.' :: ds, t2)
  | _ => some ([], s)

/-- Exponent part of a JSON number (empty if there is none). -/
def parseExp (s : Str) : Option (Str × Str) :=
  match s with
  | c :: t =>
    if c = 'e' ∨ c = 'E' then
      match t with
      | sg :: t2 =>
        if sg = '+' ∨ sg = '-' then
          match t2.span (·.isDigit) with
          | ([], _) => none
          | (ds, t3) => some (c :: sg :: ds, t3)
        else
          match t.span (·.isDigit) with
          | ([], _) => none
          | (ds, t3) => some (c :: ds, t3)
      | [] => none
    else some ([], s)
  | [] => some ([], s)

/-- Parse a JSON number, returning its lexeme and the remaining input. -/
def parseNumber (s : Str) : Option (Str × Str) :=
  let p := match s with
    | '-' :: t => (['-'], t)
    | _ => (([] : Str), s)
  match p.2 with
  | [] => none
  | c :: t =>
    if c = '0' then
      match parseFrac t with
      | some (fr, t2) =>
        match parseExp t2 with
        | some (ex, t3) => some (p.1 ++ ['0'] ++ fr ++ ex, t3)
        | none => none
      | none => none
    else if c.isDigit then
      match t.span (·.isDigit) with
      | (ds, t1) =>
        match parseFrac t1 with
        | some (fr, t2) =>
          match parseExp t2 with
          | some (ex, t3) => some (p.1 ++ (c :: ds) ++ fr ++ ex, t3)
          | none => none
        | none => none
    else none

mutual

/-- Parse one JSON value (fuel-indexed; every recursive call strictly
decreases fuel, and `jsonParse` supplies more than enough fuel). -/
def parseValue : Nat → Str → Option (Json × Str)
  | 0, _ => none
  | Nat.succ f, s =>
    match skipWs s with
    | '"' :: cs =>
      match parseStringBody cs with
      | some (body, rest) => some (.str body, rest)
      | none => none
    | 't' :: 'r' :: 'u' :: 'e' :: rest => some (.bool true, rest)
    | 'f' :: 'a' :: 'l' :: 's' :: 'e' :: rest => some (.bool false, rest)
    | 'n' :: 'u' :: 'l' :: 'l' :: rest => some (.null, rest)
    | '[' :: rest =>
      match skipWs rest with
      | ']' :: rest2 => some (.arr [], rest2)
      | _ =>
        match parseItems f rest with
        | some (xs, rest2) =>
          match skipWs rest2 with
          | ']' :: rest3 => some (.arr xs, rest3)
          | _ => none
        | none => none
    | '\x7b' :: rest =>
      match skipWs rest with
      | '\x7d' :: rest2 => some (.obj [], rest2)
      | _ =>
        match parseMembers f rest with
        | some (kvs, rest2) =>
          match skipWs rest2 with
          | '\x7d' :: rest3 => some (.obj kvs, rest3)
          | _ => none
        | none => none
    | s1 =>
      match parseNumber s1 with
      | some (lexeme, rest) => some (.num lexeme, rest)
      | none => none

/-- Parse a comma-separated nonempty sequence of array items. -/
def parseItems : Nat → Str → Option (List Json × Str)
  | 0, _ => none
  | Nat.succ f, s =>
    match parseValue f s with
    | some (v, rest) =>
      match skipWs rest with
      | ',' :: rest2 =>
        match parseItems f rest2 with
        | some (vs, rest3) => some (v :: vs, rest3)
        | none => none
      | _ => some ([v], rest)
    | none => none

/-- Parse a comma-separated nonempty sequence of object members. -/
def parseMembers : Nat → Str → Option (List (Str × Json) × Str)
  | 0, _ => none
  | Nat.succ f, s =>
    match skipWs s with
    | '"' :: cs =>
      match parseStringBody cs with
      | some (key, rest) =>
        match skipWs rest with
        | ':' :: rest2 =>
          match parseValue f rest2 with
          | some (v, rest3) =>
            match skipWs rest3 with
            | ',' :: rest4 =>
              match parseMembers f rest4 with
              | some (kvs, rest5) => some ((key, v) :: kvs, rest5)
              | none => none
            | _ => some ([(key, v)], rest3)
          | none => none
        | _ => none
      | none => none
    | _ => none

end

/-- Model of `JSON.parse`: parse one value, allow surrounding whitespace,
require the whole input to be consumed; `none` models a thrown
`SyntaxError`. The fuel `2 * length + 2` always suffices, since at least
one input character is consumed for every two fuel units spent. -/
def jsonParse (s : Str) : Option Json :=
  let t := skipWs s
  match parseValue (2 * t.length + 2) t with
  | some (v, rest) =>
    match skipWs rest with
    | [] => some v
    | _ => none
  | none => none

/-- The literal line marker `data: ` that makes a streamed line meaningful. -/
def dataTag : Str := 'd' :: 'a' :: 't' :: 'a' :: ':' :: ' ' :: []

/-- What the decoder does with one complete line. -/
inductive LineOutcome where
  | event : Json → LineOutcome
  | warned : Json → LineOutcome
  | parseFailed : LineOutcome
  | ignored : LineOutcome

/-- Line processing of `generateContentStream` (source lines 145-160):
`line.startsWith('data: ')` guards, `line.substring(5)` is parsed as JSON,
a nonempty array yields its first element, any other parse result is
logged via `console.warn`, and a parse error is logged via `console.error`. -/
def processLine (line : Str) : LineOutcome :=
  if dataTag.isPrefixOf line then
    match jsonParse (line.drop 5) with
    | some (.arr (x :: _)) => .event x
    | some j => .warned j
    | none => .parseFailed
  else .ignored

/-- The event a line outcome delivers to the consumer, if any. -/
def eventOf : LineOutcome → Option Json
  | .event j => some j
  | _ => none

/-- Events yielded by a list of lines, in order. -/
def eventsOfLines (ls : List Str) : List Json :=
  ls.filterMap fun l => eventOf (processLine l)

/-- `Json.isArray`: the `Array.isArray` test of the source. -/
def isArray : Json → Bool
  | .arr _ => true
  | _ => false

/-- The inner drain loop of the decoder (source lines 140-143): repeatedly
cut the buffer at the first newline; returns the complete lines in order
and the remaining (newline-free) buffer. -/
def splitLines : Str → List Str × Str
  | [] => ([], [])
  | c :: rest =>
    if c = '\n' then
      ([] :: (splitLines rest).1, (splitLines rest).2)
    else
      match splitLines rest with
      | ([], b) => ([], c :: b)
      | (l :: ls, b) => ((c :: l) :: ls, b)

/-- Newline-terminated rejoin of a list of complete lines. -/
def joinNl : List Str → Str
  | [] => []
  | l :: ls => l ++ '\n' :: joinNl ls

/-- One step of the reader loop: either a chunk of decoded text arrives,
or the read rejects with an error message. -/
inductive ReadEvent where
  | chunk : Str → ReadEvent
  | errorRead : Str → ReadEvent

/-- How a streaming call ends: normal end-of-stream, or a single raised
error carrying its (already wrapped) message. -/
inductive StreamTermination where
  | done : StreamTermination
  | failed : Str → StreamTermination

/-- Wrapper text of the streaming catch clause (source lines 163-169). -/
def streamTag : Str :=
  ("Failed to generate content stream from local LLM: " : String).toList

/-- The reader loop of `generateContentStream` (source lines 130-162):
append each chunk to the buffer, drain all complete lines, process each,
and on end-of-stream stop, discarding the buffer. A rejected read is
caught by the surrounding catch and re-raised once, wrapped. -/
def runReads : Str → List ReadEvent → List Json × StreamTermination
  | _, [] => ([], .done)
  | buf, .chunk c :: rest =>
    ((eventsOfLines (splitLines (buf ++ c)).1) ++ (runReads (splitLines (buf ++ c)).2 rest).1,
     (runReads (splitLines (buf ++ c)).2 rest).2)
  | _, .errorRead m :: _ => ([], .failed (streamTag ++ m))

/-- Buffer contents after the given chunks have been appended and drained. -/
def bufAfter : Str → List Str → Str
  | buf, [] => buf
  | buf, c :: cs => bufAfter (splitLines (buf ++ c)).2 cs

/-- All complete lines extracted while the given chunks arrive, in order. -/
def linesUpTo : Str → List Str → List Str
  | _, [] => []
  | buf, c :: cs =>
    (splitLines (buf ++ c)).1 ++ linesUpTo (splitLines (buf ++ c)).2 cs

/-- Events yielded by an error-free streaming body delivered as the given
chunks (buffer initially empty, end-of-stream after the last chunk). -/
def streamEvents (cs : List Str) : List Json :=
  (runReads [] (cs.map ReadEvent.chunk)).1

/-- An HTTP response as seen by the single-shot path: `ok`, `status`,
`statusText`, and the response text (whose JSON parse models `.json()`). -/
structure HttpResponse where
  ok : Bool
  status : Nat
  statusText : Str
  body : Str

/-- Outcome of the single-shot `fetchWithTimeout` call: rejection with an
error message (network failure or timeout), or a settled response. -/
inductive FetchOutcome where
  | fail : Str → FetchOutcome
  | resp : HttpResponse → FetchOutcome

/-- Wrapper text of the single-shot catch clause (source lines 84-88). -/
def genTag : Str :=
  ("Failed to generate content from local LLM: " : String).toList

/-- Message of the error thrown on a non-success status (source lines 78-82). -/
def httpMsg (status : Nat) (statusText : Str) : Str :=
  ("HTTP error! status: " : String).toList ++ (Nat.repr status).toList ++ ' ' :: statusText

/-- Message of a rejected `response.json()`; the concrete text is produced
by the JavaScript engine and is modelled abstractly as a function of the
body — no claim depends on its content. -/
def jsonRejectMsg (body : Str) : Str :=
  ("Unexpected token in JSON body of length " : String).toList ++ (Nat.repr body.length).toList

/-- `generateContent` (source lines 47-89): non-success status throws the
HTTP-status error, a success status parses the body as JSON and returns it
as-is, and every failure is re-thrown once wrapped in `genTag`. -/
def generateContent : FetchOutcome → Except Str Json
  | .fail m => .error (genTag ++ m)
  | .resp r =>
    if r.ok then
      match jsonParse r.body with
      | some j => .ok j
      | none => .error (genTag ++ jsonRejectMsg r.body)
    else .error (genTag ++ httpMsg r.status r.statusText)

/-- Outcome of the streaming `fetch` call: rejection, or a settled
response with an optional body delivered as reader events. -/
inductive StreamFetch where
  | fetchFail : Str → StreamFetch
  | resp : Bool → Nat → Str → Option (List ReadEvent) → StreamFetch

/-- Observable behaviour of `generateContentStream` (source lines 91-170):
the list of yielded events and the termination. A rejected fetch, a
non-success status, and a null body each raise one wrapped error before
any event; otherwise the reader loop runs. -/
def generateContentStream : StreamFetch → List Json × StreamTermination
  | .fetchFail m => ([], .failed (streamTag ++ m))
  | .resp ok status statusText body =>
    if ok then
      match body with
      | none => ([], .failed (streamTag ++ ("Response body is null" : String).toList))
      | some reads => runReads [] reads
    else ([], .failed (streamTag ++ httpMsg status statusText))

/-- Request fields used by the payload builder; each optional field is
`none` exactly when the caller left it unset (`undefined`). -/
structure GenParams where
  contents : Json
  safetySettings : Option Json
  temperature : Option Json
  topP : Option Json
  topK : Option Json
  candidateCount : Option Json
  maxOutputTokens : Option Json
  stopSequences : Option Json

/-- One optional object entry: `JSON.stringify` omits entries whose value
is `undefined`, so an unset field contributes no entry at all. -/
def optField (k : Str) : Option Json → List (Str × Json)
  | some v => [(k, v)]
  | none => []

/-- The serialized `generationConfig` object entries, in source order. -/
def generationConfigFields (r : GenParams) : List (Str × Json) :=
  optField ("temperature" : String).toList r.temperature
  ++ optField ("topP" : String).toList r.topP
  ++ optField ("topK" : String).toList r.topK
  ++ optField ("candidateCount" : String).toList r.candidateCount
  ++ optField ("maxOutputTokens" : String).toList r.maxOutputTokens
  ++ optField ("stopSequences" : String).toList r.stopSequences

/-- Serialized request body of `generateContent` (source lines 52-63),
after `JSON.stringify` has dropped `undefined`-valued entries. -/
def payloadGenerate (r : GenParams) : Json :=
  .obj ([(("contents" : String).toList, r.contents)]
    ++ optField ("safetySettings" : String).toList r.safetySettings
    ++ [(("generationConfig" : String).toList, .obj (generationConfigFields r))])

/-- Serialized request body of `generateContentStream` (source lines
96-107); the source duplicates the object literal verbatim. -/
def payloadStream (r : GenParams) : Json :=
  .obj ([(("contents" : String).toList, r.contents)]
    ++ optField ("safetySettings" : String).toList r.safetySettings
    ++ [(("generationConfig" : String).toList, .obj (generationConfigFields r))])

/-- Whether a JSON object has an entry with the given key. -/
def objHasKey (j : Json) (k : Str) : Bool :=
  match j with
  | .obj kvs => kvs.any fun kv => kv.1 == k
  | _ => false

/-- Whether every reader event is a chunk (no read rejection). -/
def isChunkOnly (es : List ReadEvent) : Bool :=
  es.all fun e => match e with
    | .chunk _ => true
    | _ => false

/-- Outcome of a `data: ` line as a function of its parsed remainder. -/
def dataOutcome : Option Json → LineOutcome
  | some (.arr (x :: _)) => .event x
  | some j => .warned j
  | none => .parseFailed

/-- A request with every optional sampling field unset. -/
def sampleReq : GenParams :=
  ⟨Json.null, none, none, none, none, none, none, none⟩

theorem skipWs_space (s : Str) : skipWs (' ' :: s) = skipWs s := by
  simp [skipWs, isWs]

theorem jsonParse_space (s : Str) : jsonParse (' ' :: s) = jsonParse s := by
  simp [jsonParse, skipWs_space]

theorem processLine_data (r : Str) :
    processLine (dataTag ++ r) = dataOutcome (jsonParse r) := by
  have hpre : dataTag.isPrefixOf (dataTag ++ r) = true := by
    simp [dataTag, List.isPrefixOf]
  have hdrop : (dataTag ++ r).drop 5 = ' ' :: r := by
    simp [dataTag]
  rw [processLine, hpre, if_pos rfl, hdrop, jsonParse_space]
  cases h : jsonParse r with
  | none => simp [dataOutcome]
  | some j =>
    cases j with
    | arr xs => cases xs <;> simp [dataOutcome]
    | _ => simp [dataOutcome]

theorem processLine_not_data (l : Str) (h : dataTag.isPrefixOf l = false) :
    processLine l = .ignored := by
  rw [processLine, h]
  simp

theorem splitLines_recomb (s : Str) :
    joinNl (splitLines s).1 ++ (splitLines s).2 = s := by
  induction s with
  | nil => simp [splitLines, joinNl]
  | cons c rest ih =>
    by_cases h : c = '\n'
    · subst h
      simpa [splitLines, joinNl] using ih
    · cases hr : splitLines rest with
      | mk ls b =>
        rw [hr] at ih
        cases ls with
        | nil =>
          simp [joinNl] at ih
          simp [splitLines, h, hr, joinNl, ih]
        | cons l ls2 =>
          simp [joinNl] at ih ⊢
          simp [splitLines, h, hr, joinNl, ih]

theorem splitLines_no_nl_buf (s : Str) : '\n' ∉ (splitLines s).2 := by
  induction s with
  | nil => simp [splitLines]
  | cons c rest ih =>
    by_cases h : c = '\n'
    · subst h
      simpa [splitLines] using ih
    · cases hr : splitLines rest with
      | mk ls b =>
        rw [hr] at ih
        cases ls with
        | nil => simp [splitLines, h, hr]; exact ⟨fun hc => h hc.symm, ih⟩
        | cons l ls2 => simpa [splitLines, h, hr] using ih

theorem splitLines_of_no_nl (s : Str) (h : '\n' ∉ s) : splitLines s = ([], s) := by
  induction s with
  | nil => simp [splitLines]
  | cons c rest ih =>
    have hc : ¬(c = '\n') := fun hc => h (by simp [hc])
    have hrest : '\n' ∉ rest := fun hm => h (by simp [hm])
    simp [splitLines, hc, ih hrest]

theorem splitLines_append (a b : Str) :
    splitLines (a ++ b) =
      ((splitLines a).1 ++ (splitLines ((splitLines a).2 ++ b)).1,
       (splitLines ((splitLines a).2 ++ b)).2) := by
  induction a with
  | nil => simp [splitLines]
  | cons c a2 ih =>
    by_cases h : c = '\n'
    · subst h
      simp [splitLines, ih]
    · cases hr : splitLines a2 with
      | mk ls r =>
        rw [hr] at ih
        cases ls with
        | nil =>
          have ha : r = a2 := by
            have h2 := splitLines_recomb a2
            rw [hr] at h2
            simpa [joinNl] using h2
          subst ha
          simp [splitLines, h, hr]
        | cons l ls2 =>
          simp only [List.cons_append, splitLines, if_neg h, hr, List.append_eq]
          rw [ih]
          simp

theorem linesUpTo_bufAfter_eq (cs : List Str) :
    ∀ buf, '\n' ∉ buf →
      linesUpTo buf cs = (splitLines (buf ++ cs.flatten)).1 ∧
      bufAfter buf cs = (splitLines (buf ++ cs.flatten)).2 := by
  induction cs with
  | nil =>
    intro buf h
    simp [linesUpTo, bufAfter, splitLines_of_no_nl buf h]
  | cons c cs ih =>
    intro buf h
    have h2 := splitLines_no_nl_buf (buf ++ c)
    have hrec := ih (splitLines (buf ++ c)).2 h2
    have happ := splitLines_append (buf ++ c) cs.flatten
    constructor
    · rw [linesUpTo, hrec.1, List.flatten_cons, ← List.append_assoc, happ]
    · rw [bufAfter, hrec.2, List.flatten_cons, ← List.append_assoc, happ]

theorem runReads_chunks (cs : List Str) :
    ∀ buf, runReads buf (cs.map ReadEvent.chunk) =
      (eventsOfLines (linesUpTo buf cs), .done) := by
  induction cs with
  | nil => intro buf; simp [runReads, linesUpTo, eventsOfLines]
  | cons c cs ih =>
    intro buf
    simp [runReads, linesUpTo, ih, eventsOfLines, List.filterMap_append]

theorem runReads_mid_error (m : Str) (post : List ReadEvent) (pre : List ReadEvent) :
    ∀ buf, isChunkOnly pre = true →
      runReads buf (pre ++ .errorRead m :: post) =
        ((runReads buf pre).1, .failed (streamTag ++ m)) := by
  induction pre with
  | nil => intro buf _; simp [runReads]
  | cons e pre ih =>
    intro buf hall
    cases e with
    | chunk c =>
      have hall2 : isChunkOnly pre = true := by
        simpa [isChunkOnly] using hall
      simp [runReads, ih _ hall2]
    | errorRead m2 => simp [isChunkOnly] at hall

theorem streamEvents_eq_flatten_lines (cs : List Str) :
    streamEvents cs = eventsOfLines (splitLines cs.flatten).1 := by
  have h := linesUpTo_bufAfter_eq cs [] (by simp)
  rw [streamEvents, runReads_chunks cs [], h.1]
  simp

theorem keys_optField (k : Str) (o : Option Json) :
    (optField k o).map Prod.fst = if o.isSome then [k] else [] := by
  cases o <;> simp [optField]

theorem keys_gcFields (r : GenParams) :
    (generationConfigFields r).map Prod.fst =
      (if r.temperature.isSome then [("temperature" : String).toList] else [])
      ++ (if r.topP.isSome then [("topP" : String).toList] else [])
      ++ (if r.topK.isSome then [("topK" : String).toList] else [])
      ++ (if r.candidateCount.isSome then [("candidateCount" : String).toList] else [])
      ++ (if r.maxOutputTokens.isSome then [("maxOutputTokens" : String).toList] else [])
      ++ (if r.stopSequences.isSome then [("stopSequences" : String).toList] else []) := by
  simp [generationConfigFields, keys_optField]

/-- C1: a `data: ` line whose remainder fails to parse as JSON, or parses
to an empty array or a non-array value, yields no event; deleting such a
line from the stream leaves the emitted event sequence unchanged, so the
surrounding well-formed lines still yield their events in order; and in
the concrete well-formed/malformed/well-formed scenario exactly two
events are yielded, in order, with normal termination (no error). -/
theorem c1_malformed_line_skipped :
    (∀ r : Str,
        (jsonParse r = none ∨ jsonParse r = some (.arr []) ∨
          (∃ j, jsonParse r = some j ∧ isArray j = false)) →
        eventOf (processLine (dataTag ++ r)) = none) ∧
    (∀ (pre post : List Str) (l : Str),
        eventOf (processLine l) = none →
        eventsOfLines (pre ++ l :: post) = eventsOfLines (pre ++ post)) ∧
    runReads []
        [.chunk (("data: [\x7b\"a\":1\x7d]\n" : String).toList),
         .chunk (("data: [oops\n" : String).toList),
         .chunk (("data: [\x7b\"b\":2\x7d]\n" : String).toList)] =
      ([Json.obj [(['a'], Json.num ['1'])], Json.obj [(['b'], Json.num ['2'])]],
       StreamTermination.done) := by
  refine ⟨?_, ?_, rfl⟩
  · intro r h
    rcases h with h | h | ⟨j, hj, hja⟩
    · rw [processLine_data, h]; rfl
    · rw [processLine_data, h]; rfl
    · rw [processLine_data, hj]
      cases j <;> simp [dataOutcome, eventOf, isArray] at hja ⊢
  · intro pre post l h
    simp [eventsOfLines, List.filterMap_append, List.filterMap_cons, h]

/-- Witness for C1 at the concrete malformed remainder `[]`. -/
theorem c1_malformed_line_skipped_witness :
    eventOf (processLine (dataTag ++ ("[]" : String).toList)) = none :=
  c1_malformed_line_skipped.1 (("[]" : String).toList) (Or.inr (Or.inl rfl))

/-- C2 counterexample: the line `data: [1,2]` parses to a two-element
array — not exactly one element wide — yet the decoder emits its first
element as an event rather than logging an anomaly with no event. -/
theorem c2_counterexample_two_element_array :
    jsonParse (((("data: [1,2]" : String).toList)).drop 5) =
      some (Json.arr [Json.num ['1'], Json.num ['2']]) ∧
    processLine (("data: [1,2]" : String).toList) = .event (Json.num ['1']) :=
  ⟨rfl, rfl⟩

/-- C2 (amended): a `data: ` line whose remainder parses to an array with
at least one element emits exactly the first element as one event (also
when the array has more than one element, without any anomaly logging);
an empty array or a non-array parse result is logged as an anomaly and
emits no event. -/
theorem c2_first_element_emitted :
    (∀ (r : Str) (x : Json) (xs : List Json),
        jsonParse r = some (.arr (x :: xs)) →
        processLine (dataTag ++ r) = .event x) ∧
    (∀ (r : Str) (j : Json),
        jsonParse r = some j → (j = .arr [] ∨ isArray j = false) →
        processLine (dataTag ++ r) = .warned j) := by
  constructor
  · intro r x xs h
    rw [processLine_data, h]
    rfl
  · intro r j h hj
    rw [processLine_data, h]
    rcases hj with hj | hj
    · subst hj; rfl
    · cases j <;> simp [dataOutcome, isArray] at hj ⊢

/-- Witness for C2 at the concrete remainder `[5]`. -/
theorem c2_first_element_emitted_witness :
    processLine (dataTag ++ ("[5]" : String).toList) = .event (Json.num ['5']) :=
  c2_first_element_emitted.1 (("[5]" : String).toList) (Json.num ['5']) [] rfl

/-- C3: between chunk arrivals the buffer is newline-free and is exactly
the suffix of all received text not yet resolved into a complete
newline-terminated record; all complete lines available so far have been
extracted (they are precisely the complete lines of the concatenation). -/
theorem c3_buffer_holds_unresolved_suffix (cs : List Str) :
    '\n' ∉ bufAfter [] cs ∧
    joinNl (linesUpTo [] cs) ++ bufAfter [] cs = cs.flatten ∧
    linesUpTo [] cs = (splitLines cs.flatten).1 := by
  have h := linesUpTo_bufAfter_eq cs [] (by simp)
  refine ⟨?_, ?_, ?_⟩
  · rw [h.2]
    simpa using splitLines_no_nl_buf cs.flatten
  · rw [h.1, h.2]
    simpa using splitLines_recomb cs.flatten
  · rw [h.1]
    simp

/-- C4: the emitted event sequence depends only on the concatenation of
the received chunks, not on the chunk boundaries; in particular the
record split as `data: [{"a"` / `:1}]\n` yields exactly the one event
`{"a":1}`, and the first chunk alone yields no event. -/
theorem c4_boundary_invariance :
    (∀ cs : List Str, streamEvents cs = streamEvents [cs.flatten]) ∧
    streamEvents [("data: [\x7b\"a\"" : String).toList, (":1\x7d]\n" : String).toList] =
      [Json.obj [(['a'], Json.num ['1'])]] ∧
    streamEvents [("data: [\x7b\"a\"" : String).toList] = [] := by
  refine ⟨?_, rfl, rfl⟩
  intro cs
  rw [streamEvents_eq_flatten_lines, streamEvents_eq_flatten_lines]
  simp

/-- C5: end-of-stream yields nothing further whatever the buffer holds;
appending a trailing newline-free chunk never changes the emitted events
(the trailing partial record is discarded); chunk-only streams end in
Done; concretely, `data: [1]\ndata: [2]` emits only the event for the
newline-terminated record `[1]`. -/
theorem c5_trailing_partial_discarded :
    (∀ buf : Str, runReads buf [] = ([], StreamTermination.done)) ∧
    (∀ (cs : List Str) (t : Str), '\n' ∉ t →
        streamEvents (cs ++ [t]) = streamEvents cs) ∧
    (∀ cs : List Str, (runReads [] (cs.map ReadEvent.chunk)).2 = StreamTermination.done) ∧
    streamEvents [("data: [1]\ndata: [2]" : String).toList] = [Json.num ['1']] := by
  refine ⟨fun buf => rfl, ?_, ?_, rfl⟩
  · intro cs t h
    rw [streamEvents_eq_flatten_lines, streamEvents_eq_flatten_lines]
    have hflat : (cs ++ [t]).flatten = cs.flatten ++ t := by simp
    rw [hflat, splitLines_append]
    have hnb : '\n' ∉ (splitLines cs.flatten).2 ++ t := by
      intro hm
      rcases List.mem_append.mp hm with hm | hm
      · exact splitLines_no_nl_buf cs.flatten hm
      · exact h hm
    rw [splitLines_of_no_nl _ hnb]
    simp
  · intro cs
    rw [runReads_chunks]

/-- Witness for C5: dropping the newline-free trailing chunk `data: [2]`
does not change the emitted events. -/
theorem c5_trailing_partial_discarded_witness :
    streamEvents [("data: [1]\n" : String).toList, ("data: [2]" : String).toList] =
      streamEvents [("data: [1]\n" : String).toList] :=
  c5_trailing_partial_discarded.2.1 [("data: [1]\n" : String).toList]
    (("data: [2]" : String).toList) (by decide)

/-- C6: a line is meaningful only if it starts with the literal `data: `
marker — any other line, including the blank line, is ignored and yields
no event — and for a marked line the marker is stripped and the remainder
is parsed as JSON, the outcome being a function of that parse alone. -/
theorem c6_data_marker_gates_lines :
    (∀ r : Str, processLine (dataTag ++ r) = dataOutcome (jsonParse r)) ∧
    (∀ l : Str, dataTag.isPrefixOf l = false → processLine l = .ignored) ∧
    processLine [] = .ignored := by
  refine ⟨processLine_data, processLine_not_data, rfl⟩

/-- Witness for C6: an SSE `event:` line is ignored, and a marked line's
outcome is the parse of its remainder. -/
theorem c6_data_marker_gates_lines_witness :
    processLine (("event: x" : String).toList) = .ignored :=
  c6_data_marker_gates_lines.2.1 (("event: x" : String).toList) rfl

/-- C7: a rejected fetch, a non-success status, and a null response body
each terminate the stream with one wrapped error (the streaming wrapper
text followed by the inner cause's message) and no events; a read
rejection after chunk-only reads keeps exactly the events already yielded
from those reads, independently of anything after the failure, and
terminates with the single wrapped error. -/
theorem c7_transport_failure_single_error :
    (∀ m : Str, generateContentStream (.fetchFail m) =
        ([], .failed (streamTag ++ m))) ∧
    (∀ (st : Nat) (tx : Str) (b : Option (List ReadEvent)),
        generateContentStream (.resp false st tx b) =
          ([], .failed (streamTag ++ httpMsg st tx))) ∧
    (∀ (st : Nat) (tx : Str),
        generateContentStream (.resp true st tx none) =
          ([], .failed (streamTag ++ ("Response body is null" : String).toList))) ∧
    (∀ (buf m : Str) (pre post : List ReadEvent), isChunkOnly pre = true →
        runReads buf (pre ++ .errorRead m :: post) =
          ((runReads buf pre).1, .failed (streamTag ++ m))) := by
  refine ⟨fun m => rfl, fun st tx b => rfl, fun st tx => rfl, ?_⟩
  intro buf m pre post h
  exact runReads_mid_error m post pre buf h

/-- Witness for C7: a mid-stream read rejection after one good chunk
yields exactly that chunk's event and the one wrapped error; a later
chunk yields nothing. -/
theorem c7_transport_failure_single_error_witness :
    runReads [] [ReadEvent.chunk (("data: [7]\n" : String).toList),
                 ReadEvent.errorRead (("boom" : String).toList),
                 ReadEvent.chunk (("data: [8]\n" : String).toList)] =
      ([Json.num ['7']], .failed (streamTag ++ ("boom" : String).toList)) :=
  (c7_transport_failure_single_error.2.2.2 [] (("boom" : String).toList)
    [ReadEvent.chunk (("data: [7]\n" : String).toList)]
    [ReadEvent.chunk (("data: [8]\n" : String).toList)] rfl).trans rfl

/-- C8: a non-success HTTP status makes the single-shot call fail with
the wrapper text followed by the HTTP-status message — which contains the
status code and status text — and the result is the same whatever the
body holds, i.e. the body is never parsed. -/
theorem c8_non_success_status_fails_unparsed :
    ∀ (st : Nat) (tx b b2 : Str),
      generateContent (.resp ⟨false, st, tx, b⟩) = .error (genTag ++ httpMsg st tx) ∧
      generateContent (.resp ⟨false, st, tx, b⟩) =
        generateContent (.resp ⟨false, st, tx, b2⟩) ∧
      (∃ p q, genTag ++ httpMsg st tx = p ++ (Nat.repr st).toList ++ q) ∧
      (∃ p q, genTag ++ httpMsg st tx = p ++ tx ++ q) := by
  intro st tx b b2
  refine ⟨rfl, rfl,
    ⟨genTag ++ ("HTTP error! status: " : String).toList, ' ' :: tx, by
      simp [httpMsg]⟩,
    ⟨genTag ++ ("HTTP error! status: " : String).toList ++ (Nat.repr st).toList ++ [' '], [], by
      simp [httpMsg]⟩⟩

/-- C9: the serialized request body of both paths is identical; every
unset sampling field is absent from the serialized `generationConfig`
object, and an unset `safetySettings` is absent from the top-level
object — no unset field is ever given a default value. -/
theorem c9_unset_fields_serialized_absent :
    ∀ r : GenParams,
      payloadStream r = payloadGenerate r ∧
      payloadGenerate r =
        .obj ([(("contents" : String).toList, r.contents)]
          ++ optField ("safetySettings" : String).toList r.safetySettings
          ++ [(("generationConfig" : String).toList, .obj (generationConfigFields r))]) ∧
      (r.temperature = none →
        ("temperature" : String).toList ∉ (generationConfigFields r).map Prod.fst) ∧
      (r.topP = none →
        ("topP" : String).toList ∉ (generationConfigFields r).map Prod.fst) ∧
      (r.topK = none →
        ("topK" : String).toList ∉ (generationConfigFields r).map Prod.fst) ∧
      (r.candidateCount = none →
        ("candidateCount" : String).toList ∉ (generationConfigFields r).map Prod.fst) ∧
      (r.maxOutputTokens = none →
        ("maxOutputTokens" : String).toList ∉ (generationConfigFields r).map Prod.fst) ∧
      (r.stopSequences = none →
        ("stopSequences" : String).toList ∉ (generationConfigFields r).map Prod.fst) ∧
      (r.safetySettings = none →
        ("safetySettings" : String).toList ∉
          ([(("contents" : String).toList, r.contents)]
            ++ optField ("safetySettings" : String).toList r.safetySettings
            ++ [(("generationConfig" : String).toList,
                  Json.obj (generationConfigFields r))]).map Prod.fst) := by
  intro r
  refine ⟨rfl, rfl, ?_, ?_, ?_, ?_, ?_, ?_, ?_⟩
  all_goals intro h
  all_goals first
    | (rw [keys_gcFields]; simp [h])
    | simp [h, optField]

/-- Witness for C9 on the all-unset request. -/
theorem c9_unset_fields_serialized_absent_witness :
    ("temperature" : String).toList ∉ (generationConfigFields sampleReq).map Prod.fst :=
  (c9_unset_fields_serialized_absent sampleReq).2.2.1 rfl

/-- C10: on a success status the single-shot call returns whatever the
body parses to as JSON — null, a bare number, an empty object — with no
shape validation, and only a body that fails to parse produces an
(wrapped) error. -/
theorem c10_success_body_returned_unvalidated :
    (∀ (r : HttpResponse) (j : Json), r.ok = true → jsonParse r.body = some j →
        generateContent (.resp r) = .ok j) ∧
    (∀ r : HttpResponse, r.ok = true → jsonParse r.body = none →
        generateContent (.resp r) = .error (genTag ++ jsonRejectMsg r.body)) ∧
    generateContent (.resp ⟨true, 200, ("OK" : String).toList, ("null" : String).toList⟩) =
      .ok Json.null ∧
    generateContent (.resp ⟨true, 200, ("OK" : String).toList, ("3" : String).toList⟩) =
      .ok (Json.num ['3']) ∧
    generateContent (.resp ⟨true, 200, ("OK" : String).toList, ("\x7b\x7d" : String).toList⟩) =
      .ok (Json.obj []) := by
  refine ⟨?_, ?_, rfl, rfl, rfl⟩
  · intro r j hok hj
    simp [generateContent, hok, hj]
  · intro r hok hj
    simp [generateContent, hok, hj]

/-- Witness for C10: a JSON-parsable body that is nothing like a
generation event is still returned as a success. -/
theorem c10_success_body_returned_unvalidated_witness :
    generateContent (.resp ⟨true, 200, ("OK" : String).toList, ("[]" : String).toList⟩) =
      .ok (Json.arr []) :=
  c10_success_body_returned_unvalidated.1
    ⟨true, 200, ("OK" : String).toList, ("[]" : String).toList⟩ (Json.arr []) rfl rfl

end LocalGen
